import Mathlib

/-!
Verification development for the sub-track substance-use journal.

Shallow embedding of the persistence layer (src/db.ts), the aggregation
functions and chart helpers (App.tsx), the entry model (constants.ts) and
the form/edit handlers (App.tsx, components/LogItem.tsx).

Conventions of the embedding:
* JavaScript numbers are modelled as rationals; float rounding is
  abstracted away (all inputs of interest are small decimals).
* JavaScript strings are Lean strings; SQLite compares TEXT columns by
  bytes, which on UTF-8 agrees with the codepoint order used here.
* Nullable / optional values are Option; JS truthiness of a string is
  "not the empty string".
* Date handling (local calendar day of a timestamp, the current clock)
  is abstracted: the day-bucketing function and the label list, which
  App.tsx derives from the runtime clock and timezone, are parameters of
  the aggregation model; time arithmetic in the frequency aggregation is
  done on epoch milliseconds carried directly by the model log.
-/

/-- LogEntry from constants.ts: the in-memory entry shape used by the UI. -/
structure LogEntry where
  id : String
  substance : String
  notes : String
  feelings : Option (List String)
  dosage : Option String
  timestamp : String
  deriving DecidableEq, Repr

/-- SUBSTANCE_OPTIONS from constants.ts. -/
def SUBSTANCE_OPTIONS : List String :=
  ["Marijuana", "Alcohol", "Nicotine"]

/-- DOSAGE_WEIGHTS from constants.ts: known dosage label to relative magnitude. -/
def DOSAGE_WEIGHTS : List (String × ℚ) :=
  [("1mg", 1), ("2.5mg", 2.5), ("5mg", 5), ("7.5mg", 7.5), ("10mg", 10),
   ("20mg", 20), ("1 hit", 8), ("2 hits", 16), ("3 hits", 24),
   ("1 drink", 1), ("2 drinks", 2), ("3 drinks", 3), ("4 drinks", 4),
   ("3mg", 3), ("6mg", 6), ("1 cigarette", 2)]

/-- Lookup in DOSAGE_WEIGHTS; models the JS object-key access
DOSAGE_WEIGHTS[d] together with the "!== undefined" test. -/
def dosageWeight (d : String) : Option ℚ :=
  (DOSAGE_WEIGHTS.find? (fun p => p.1 == d)).map Prod.snd

/-- Digits read greedily from the front of a character list, as values 0..9. -/
def readDigits : List Char → List ℕ × List Char
  | [] => ([], [])
  | c :: cs =>
    if c.isDigit then
      let (ds, rest) := readDigits cs
      ((c.toNat - 48) :: ds, rest)
    else ([], c :: cs)

/-- Value of a digit string read most-significant first. -/
def digitsVal (ds : List ℕ) : ℕ :=
  ds.foldl (fun acc d => acc * 10 + d) 0

/-- Exponent suffix of a JS decimal literal, read after the letter e or E:
optional sign then digits; an exponent without digits is ignored (value 0),
matching how parseFloat drops a trailing partial exponent. -/
def readExp (r : List Char) : ℤ :=
  let esignAndRest : Bool × List Char :=
    match r with
    | '-' :: rr => (true, rr)
    | '+' :: rr => (false, rr)
    | _ => (false, r)
  let eDs := (readDigits esignAndRest.2).1
  if eDs.isEmpty then 0
  else if esignAndRest.1 then -(digitsVal eDs : ℤ) else (digitsVal eDs : ℤ)

/-- Structural half of the JavaScript builtin parseFloat: skip leading
whitespace, optional sign, digits with an optional fractional part, optional
exponent; trailing junk is ignored; none models NaN (no digits found).
Returns (negative sign, integer digits, fraction digits, exponent). -/
def parseDecimal (s : String) : Option (Bool × List ℕ × List ℕ × ℤ) :=
  let cs := s.data.dropWhile Char.isWhitespace
  let signAndRest : Bool × List Char :=
    match cs with
    | '-' :: r => (true, r)
    | '+' :: r => (false, r)
    | _ => (false, cs)
  let (intDs, cs2) := readDigits signAndRest.2
  let fracAndRest : List ℕ × List Char :=
    match cs2 with
    | '.' :: r => readDigits r
    | _ => ([], cs2)
  if intDs.isEmpty && fracAndRest.1.isEmpty then none
  else
    let expVal : ℤ :=
      match fracAndRest.2 with
      | 'e' :: r => readExp r
      | 'E' :: r => readExp r
      | _ => 0
    some (signAndRest.1, intDs, fracAndRest.1, expVal)

/-- Numeric value denoted by a parsed decimal literal. -/
def decimalValue (neg : Bool) (intDs fracDs : List ℕ) (expVal : ℤ) : ℚ :=
  let sign : ℚ := if neg then -1 else 1
  let mantissa : ℚ :=
    (digitsVal intDs : ℚ) + (digitsVal fracDs : ℚ) / ((10 : ℚ) ^ fracDs.length)
  let scale : ℚ := (10 : ℚ) ^ expVal.natAbs
  if 0 ≤ expVal then sign * mantissa * scale else sign * mantissa / scale

/-- Model of the JavaScript builtin parseFloat, restricted to finite decimal
notation.  The special strings accepted by the real builtin that do not
denote finite decimals ("Infinity") are outside the rational model. -/
def jsParseFloat (s : String) : Option ℚ :=
  (parseDecimal s).map (fun p => decimalValue p.1 p.2.1 p.2.2.1 p.2.2.2)

/-- Model of the JavaScript String.prototype.trim used by handleSubmit:
strip whitespace from both ends. -/
def jsTrim (s : String) : String :=
  ⟨((s.data.dropWhile Char.isWhitespace).reverse.dropWhile Char.isWhitespace).reverse⟩

/-- The per-entry magnitude computed inside aggregateUsageOverTime (App.tsx):
magnitude starts at 0; if the dosage is truthy, an exact DOSAGE_WEIGHTS match
wins, else a successful parseFloat; finally a magnitude that is still (or has
been parsed as) 0 is replaced by 1. -/
def entryMagnitude (dosage : Option String) : ℚ :=
  let magnitude : ℚ :=
    match dosage with
    | some d =>
      if d ≠ "" then
        match dosageWeight d with
        | some w => w
        | none =>
          match jsParseFloat d with
          | some parsed => parsed
          | none => 0
      else 0
    | none => 0
  if magnitude = 0 then 1 else magnitude

/-- The magnitude as the specification words it: (a) exact match against the
dosage-weight table; (b) else the dosage text parsed as a leading decimal
number; (c) else the default 1.  Written from the spec sentence, to be
compared with entryMagnitude which is written from the code. -/
def specMagnitude (dosage : Option String) : ℚ :=
  match dosage with
  | some d =>
    match dosageWeight d with
    | some w => w
    | none =>
      match jsParseFloat d with
      | some parsed => parsed
      | none => 1
  | none => 1

example : parseDecimal "15 mg" = some (false, [1, 5], [], 0) := rfl
example : parseDecimal "bogus" = none := rfl
example : parseDecimal "2.5" = some (false, [2], [5], 0) := rfl
example : parseDecimal "0mg" = some (false, [0], [], 0) := rfl
example : jsParseFloat "15 mg" = some 15 := by
  show some (decimalValue false [1, 5] [] 0) = some 15
  norm_num [decimalValue, digitsVal]
example : jsParseFloat "bogus" = none := rfl
example : jsParseFloat "0" = some 0 := by
  show some (decimalValue false [0] [] 0) = some 0
  norm_num [decimalValue, digitsVal]
example : dosageWeight "5mg" = some 5 := rfl
example : dosageWeight "0" = none := rfl
example : entryMagnitude (some "bogus") = 1 := by
  show (if (0 : ℚ) = 0 then 1 else 0) = 1
  norm_num
example : jsTrim "  Alcohol " = "Alcohol" := rfl

/-- One iteration of the log loop in aggregateUsageOverTime (App.tsx).
The series object is modelled as a function from substance name to its
bucket array (a name that was never assigned maps to the empty array).
The day-bucketing function dateKey (getDateKey in the source) is a
parameter because it depends on the runtime timezone; labels is the
date-key list the source builds with buildDateRange from the clock. -/
def usageStep (dateKey : String → String) (labels : List String)
    (subs : List String) (series : String → List ℚ) (l : LogEntry) :
    String → List ℚ :=
  if l.substance = "" then series
  else if l.substance ∉ subs then series
  else if l.timestamp = "" then series
  else
    let key := dateKey l.timestamp
    if key ∈ labels then
      let idx := labels.indexOf key
      fun s =>
        if s = l.substance then
          (series l.substance).set idx
            ((series l.substance).getD idx 0 + entryMagnitude l.dosage)
        else series s
    else series

/-- aggregateUsageOverTime (App.tsx): initialise a zero bucket array per
tracked substance, then fold the log loop.  In the app labels is
buildDateRange(days) for a non-null day count and the empty list otherwise. -/
def aggregateUsageOverTime (dateKey : String → String) (logs : List LogEntry)
    (labels : List String) (substances : List String) : String → List ℚ :=
  logs.foldl (usageStep dateKey labels substances)
    (fun s => if s ∈ substances then labels.map (fun _ => (0 : ℚ)) else [])

/-- A log as seen by aggregateFrequencies: the substance name and the epoch
milliseconds of its timestamp (the value of new Date(timestamp).getTime();
string-to-date parsing is abstracted). -/
structure FreqLog where
  substance : String
  time : ℤ
  deriving DecidableEq, Repr

/-- The cutoff of the window aggregations (App.tsx):
days ? Date.now() - days * 24 * 60 * 60 * 1000 : null, where a day count
of 0 is falsy in JS and so also yields null. -/
def freqCutoff (now : ℤ) (days : Option ℤ) : Option ℤ :=
  match days with
  | some d => if d ≠ 0 then some (now - d * (24 * 60 * 60 * 1000)) else none
  | none => none

/-- The skip test of aggregateFrequencies:
cutoff && new Date(l.timestamp).getTime() < cutoff — true only when the
cutoff is truthy (non-null and nonzero) and the entry is strictly older. -/
def freqSkip (cutoff : Option ℤ) (l : FreqLog) : Bool :=
  match cutoff with
  | some c => decide (c ≠ 0) && decide (l.time < c)
  | none => false

/-- One iteration of the log loop of aggregateFrequencies:
counts[l.substance] = (counts[l.substance] || 0) + 1 unless the substance
is falsy or the entry is skipped. -/
def freqStep (cutoff : Option ℤ) (counts : String → ℕ) (l : FreqLog) :
    String → ℕ :=
  if l.substance = "" then counts
  else if freqSkip cutoff l then counts
  else fun s => if s = l.substance then counts l.substance + 1 else counts s

/-- aggregateFrequencies (App.tsx): per-substance entry count within the
window.  The counts object is modelled as a function with default 0. -/
def aggregateFrequencies (now : ℤ) (logs : List FreqLog) (days : Option ℤ) :
    String → ℕ :=
  logs.foldl (freqStep (freqCutoff now days)) (fun _ => 0)

/-- Largest element of a list of JS numbers, with a default for the empty
spread Math.max() case as guarded in the chart components. -/
def listMaxD (default : ℚ) (l : List ℚ) : ℚ :=
  match l with
  | [] => default
  | v :: vs => vs.foldl max v

/-- MultiLineChart (App.tsx): the max value used as the divisor of every
y coordinate, computed as allValues.length ? Math.max(...allValues) : 1
where allValues is Object.values(series).flat(). -/
def multiLineMax (series : List (String × List ℚ)) : ℚ :=
  listMaxD 1 ((series.map Prod.snd).flatten)

/-- VerticalBarChart (App.tsx): the divisor of the bar height,
Math.max(1, max) with max = items.length ? Math.max(...values) : 1. -/
def verticalBarDivisor (values : List ℚ) : ℚ :=
  max 1 (listMaxD 1 values)

/-- HorizontalBarChart (App.tsx): the divisor of the bar width,
Math.max(1, max) with max = items.length ? Math.max(...values) : 1. -/
def horizontalBarDivisor (values : List ℚ) : ℚ :=
  max 1 (listMaxD 1 values)

/-- A row of the logs table (Row in src/db.ts).  The schema declares id as
TEXT PRIMARY KEY, substance and timestamp as NOT NULL TEXT, the rest as
nullable TEXT (feelings holds a JSON-encoded array). -/
structure Row where
  id : String
  substance : String
  notes : Option String
  feelings : Option String
  dosage : Option String
  timestamp : String
  deriving DecidableEq, Repr

/-- State of the db.ts module: the in-memory database (its logs table as a
list of rows in rowid, i.e. insertion, order) and the blob persisted in
localforage under DB_KEY, decoded as the row list it serialises (none when
nothing has been stored yet). -/
structure Store where
  rows : List Row
  saved : Option (List Row)
  deriving DecidableEq, Repr

/-- Error raised by the storage engine inside a Record Store operation. -/
inductive DbError
  | pkConflict
  deriving DecidableEq, Repr

/-- persist (db.ts): serialise the database and write it to localforage.
The body is a try/catch whose catch only logs the error, so a failing
write (storageFails, e.g. quota exceeded) leaves the previous snapshot in
place and persist itself never raises. -/
def persist (storageFails : Bool) (s : Store) : Store :=
  if storageFails then s else { s with saved := some s.rows }

/-- The INSERT the prepared statement of addLog executes: SQLite rejects a
duplicate primary key and leaves the table untouched, otherwise the row is
appended. -/
def insertRow (row : Row) (rows : List Row) : Except DbError (List Row) :=
  if rows.any (fun r => r.id == row.id) then .error .pkConflict
  else .ok (rows ++ [row])

/-- addLog (db.ts): run the INSERT, then persist.  A statement error
propagates to the caller (second component) with the store unchanged; a
persist failure does not. -/
def addLog (storageFails : Bool) (row : Row) (s : Store) :
    Store × Option DbError :=
  match insertRow row s.rows with
  | .error e => (s, some e)
  | .ok rows2 => (persist storageFails { s with rows := rows2 }, none)

/-- updateLog (db.ts): UPDATE logs SET substance, notes, feelings, dosage,
timestamp WHERE id = row.id, then persist.  A non-matching id updates zero
rows without error. -/
def updateLog (storageFails : Bool) (row : Row) (s : Store) : Store :=
  persist storageFails
    { s with
      rows := s.rows.map (fun r =>
        if r.id == row.id then
          { r with
            substance := row.substance
            notes := row.notes
            feelings := row.feelings
            dosage := row.dosage
            timestamp := row.timestamp }
        else r) }

/-- Modelled from the spec: deleteLog is imported from './db' by App.tsx but
its body is absent from src/db.ts; the spec says delete(id) removes the row
matching id and persists afterward. -/
def deleteLog (storageFails : Bool) (id : String) (s : Store) : Store :=
  persist storageFails { s with rows := s.rows.filter (fun r => r.id ≠ id) }

/-- clearAll (db.ts): DELETE FROM logs, then persist. -/
def clearAll (storageFails : Bool) (s : Store) : Store :=
  persist storageFails { s with rows := [] }

/-- A database blob as db.export() serialises it and new SQL.Database
deserialises it, decoded: some rows when the blob contains a logs table
with those rows, none when the table is absent. -/
abbrev Blob := Option (List Row)

/-- exportRaw (db.ts): return the serialised database; ensureInit has made
the logs table exist, so the blob always carries it. -/
def exportRaw (s : Store) : Blob :=
  some s.rows

/-- importRaw (db.ts): replace the whole database with the blob, re-run
CREATE TABLE IF NOT EXISTS logs (an absent table becomes an empty one),
then persist. -/
def importRaw (storageFails : Bool) (blob : Blob) (s : Store) : Store :=
  persist storageFails { s with rows := blob.getD [] }

/-- Timestamp-descending comparison used by the ORDER BY timestamp DESC of
getAllLogs; SQLite compares TEXT with memcmp, the codepoint order of the
Lean string order. -/
def tsGe (a b : Row) : Prop :=
  b.timestamp ≤ a.timestamp

instance : DecidableRel tsGe :=
  fun a b => inferInstanceAs (Decidable (b.timestamp ≤ a.timestamp))

instance : IsTotal Row tsGe :=
  ⟨fun a b => le_total b.timestamp a.timestamp⟩

instance : IsTrans Row tsGe :=
  ⟨fun _ _ _ h1 h2 => le_trans h2 h1⟩

/-- getAllLogs (db.ts): SELECT ... FROM logs ORDER BY timestamp DESC. -/
def getAllLogs (s : Store) : List Row :=
  List.insertionSort tsGe s.rows

/-- Store states reachable from a fresh database by any interleaving of
creates, updates and deletes (with either outcome of each persist). -/
inductive Reachable : Store → Prop
  | init : Reachable ⟨[], none⟩
  | create (f : Bool) (row : Row) {s : Store} :
      Reachable s → Reachable (addLog f row s).1
  | update (f : Bool) (row : Row) {s : Store} :
      Reachable s → Reachable (updateLog f row s)
  | del (f : Bool) (id : String) {s : Store} :
      Reachable s → Reachable (deleteLog f id s)

/-- The state of the New Log form in App.tsx. -/
structure FormState where
  substance : String
  notes : String
  feelings : List String
  dosage : String
  deriving DecidableEq, Repr

/-- handleSubmit (App.tsx): reject a blank substance before any store call,
otherwise build the new entry, trimming text fields, normalising an empty
feelings selection to undefined and an empty dosage to undefined.  The
fresh id (crypto.randomUUID()) and the current time are parameters. -/
def handleSubmit (st : FormState) (newId nowIso : String) : Option LogEntry :=
  if jsTrim st.substance = "" then none
  else some
    { id := newId
      substance := jsTrim st.substance
      notes := jsTrim st.notes
      feelings := if st.feelings.length ≠ 0 then some st.feelings else none
      dosage := if jsTrim st.dosage ≠ "" then some (jsTrim st.dosage) else none
      timestamp := nowIso }

/-- toggleFeeling (components/LogItem.tsx): add or remove one feeling tag of
the entry under edit; an emptied list is normalised to undefined. -/
def toggleFeeling (feeling : String) (prev : LogEntry) : LogEntry :=
  let currentFeelings := prev.feelings.getD []
  let newFeelings :=
    if feeling ∈ currentFeelings then
      currentFeelings.filter (fun f => f ≠ feeling)
    else currentFeelings ++ [feeling]
  { prev with
    feelings := if newFeelings.length ≠ 0 then some newFeelings else none }

/-- handleSubstanceChange (components/LogItem.tsx): set the substance and
reset the dosage; its only call sites pass elements of SUBSTANCE_OPTIONS. -/
def handleSubstanceChange (substance : String) (prev : LogEntry) : LogEntry :=
  { prev with substance := substance, dosage := none }

/-- An edit action available in the edit view of LogItem.tsx. -/
inductive EditAction
  | setSubstance (s : String) (mem : s ∈ SUBSTANCE_OPTIONS)
  | toggle (f : String)
  | setDosage (d : String)
  | setNotes (n : String)
  | setTime (iso : String)

/-- State transition of the entry under edit for one action. -/
def applyEdit (e : LogEntry) : EditAction → LogEntry
  | .setSubstance s _ => handleSubstanceChange s e
  | .toggle f => toggleFeeling f e
  | .setDosage d => { e with dosage := some d }
  | .setNotes n => { e with notes := n }
  | .setTime iso => { e with timestamp := iso }

/-- The entry invariants of the data model that claims C9 is about:
non-empty substance, and feelings non-empty whenever present. -/
def EntryInv (e : LogEntry) : Prop :=
  e.substance ≠ "" ∧ ∀ fs, e.feelings = some fs → fs ≠ []

lemma persist_rows (f : Bool) (s : Store) : (persist f s).rows = s.rows := by
  cases f <;> rfl

lemma getAllLogs_perm (s : Store) : (getAllLogs s).Perm s.rows :=
  List.perm_insertionSort tsGe s.rows

lemma getAllLogs_sorted (s : Store) : List.Sorted tsGe (getAllLogs s) :=
  List.sorted_insertionSort tsGe s.rows

lemma map_id_of_mem_eq {α : Type} (l : List α) (f : α → α)
    (h : ∀ x ∈ l, f x = x) : l.map f = l := by
  induction l with
  | nil => rfl
  | cons x xs ih =>
    simp only [List.map_cons, h x (by simp)]
    rw [ih (fun y hy => h y (by simp [hy]))]

lemma rows_any_id_eq_false {row : Row} {s : Store}
    (h : ∀ r ∈ s.rows, r.id ≠ row.id) :
    s.rows.any (fun r => r.id == row.id) = false := by
  rw [List.any_eq_false]
  intro r hr
  simpa using h r hr

/-- C5: for every store state reachable by any interleaving of creates,
updates and deletes, getAllLogs returns exactly the stored rows (a
permutation of the table) sorted by timestamp in descending order. -/
theorem getAllLogs_sorted_of_reachable (s : Store) (_h : Reachable s) :
    (getAllLogs s).Pairwise (fun a b => b.timestamp ≤ a.timestamp) ∧
    (getAllLogs s).Perm s.rows :=
  ⟨List.sorted_insertionSort tsGe s.rows, List.perm_insertionSort tsGe s.rows⟩

theorem getAllLogs_sorted_of_reachable_witness :
    (getAllLogs
        (addLog false ⟨"b", "Alcohol", none, none, none, "2026-01-02"⟩
          (addLog false ⟨"a", "Nicotine", none, none, none, "2026-01-05"⟩
            ⟨[], none⟩).1).1).Pairwise
      (fun a b => b.timestamp ≤ a.timestamp) ∧
    (getAllLogs
        (addLog false ⟨"b", "Alcohol", none, none, none, "2026-01-02"⟩
          (addLog false ⟨"a", "Nicotine", none, none, none, "2026-01-05"⟩
            ⟨[], none⟩).1).1).Perm
      (addLog false ⟨"b", "Alcohol", none, none, none, "2026-01-02"⟩
        (addLog false ⟨"a", "Nicotine", none, none, none, "2026-01-05"⟩
          ⟨[], none⟩).1).1.rows :=
  getAllLogs_sorted_of_reachable _
    (Reachable.create false _ (Reachable.create false _ Reachable.init))

/-- C6: create fails (with a primary-key conflict) precisely when a row with
the same id is already stored, and a failed create leaves the store
unchanged (no replacement, no partial row). -/
theorem addLog_conflict_iff (f : Bool) (e : Row) (s : Store) :
    ((addLog f e s).2.isSome ↔ ∃ r ∈ s.rows, r.id = e.id) ∧
    ((addLog f e s).2.isSome → (addLog f e s).1 = s) := by
  by_cases h : s.rows.any (fun r => r.id == e.id)
  · constructor
    · simp only [addLog, insertRow, h, if_true]
      simp only [List.any_eq_true, beq_iff_eq] at h
      simpa using h
    · intro _
      simp [addLog, insertRow, h]
  · have h2 : s.rows.any (fun r => r.id == e.id) = false := by
      simpa using h
    constructor
    · simp only [addLog, insertRow, h2, Bool.false_eq_true, if_false]
      rw [List.any_eq_false] at h2
      simp only [Option.isSome_none, Bool.false_eq_true, false_iff]
      rintro ⟨r, hr, he⟩
      exact h2 r hr (by simpa using he)
    · simp [addLog, insertRow, h2]

/-- C7: importing the store's own exported snapshot leaves listAll
unchanged, and importing any blob replaces the whole collection with
exactly the rows the blob encodes, independent of the prior contents. -/
theorem export_import_roundtrip (f : Bool) (s s2 : Store) (blob : Blob) :
    getAllLogs (importRaw f (exportRaw s) s2) = getAllLogs s ∧
    (importRaw f blob s2).rows = blob.getD [] := by
  constructor
  · unfold getAllLogs
    rw [show (importRaw f (exportRaw s) s2).rows = s.rows from persist_rows f _]
  · exact persist_rows f _

/-- C10: update on an id that is not in the store completes without error
as a silent no-op: zero rows match and the collection is unchanged. -/
theorem updateLog_missing_id_noop (f : Bool) (row : Row) (s : Store)
    (h : ∀ r ∈ s.rows, r.id ≠ row.id) :
    (updateLog f row s).rows = s.rows ∧
    getAllLogs (updateLog f row s) = getAllLogs s := by
  have hmap : (updateLog f row s).rows = s.rows := by
    rw [updateLog, persist_rows]
    exact map_id_of_mem_eq _ _ (fun r hr => by
      simp [beq_eq_false_iff_ne.mpr (h r hr)])
  exact ⟨hmap, by unfold getAllLogs; rw [hmap]⟩

theorem updateLog_missing_id_noop_witness :
    (updateLog false ⟨"b", "Alcohol", none, none, none, "t1"⟩
        ⟨[⟨"a", "Nicotine", none, none, none, "t0"⟩], none⟩).rows =
      [⟨"a", "Nicotine", none, none, none, "t0"⟩] ∧
    getAllLogs (updateLog false ⟨"b", "Alcohol", none, none, none, "t1"⟩
        ⟨[⟨"a", "Nicotine", none, none, none, "t0"⟩], none⟩) =
      getAllLogs ⟨[⟨"a", "Nicotine", none, none, none, "t0"⟩], none⟩ :=
  updateLog_missing_id_noop false _ _ (by decide)

/-- C2 counterexample: with the storage write raising (quota exceeded), a
create on a fresh id still resolves successfully — the returned error slot
is none and the in-memory row is kept — instead of rejecting as claimed;
persist's catch block swallows the storage error. -/
theorem addLog_storage_failure_ok_counterexample :
    addLog true ⟨"id1", "Alcohol", none, none, some "1 drink", "t0"⟩ ⟨[], none⟩ =
      (⟨[⟨"id1", "Alcohol", none, none, some "1 drink", "t0"⟩], none⟩, none) :=
  rfl

/-- C2 amended: a storage-layer failure while persisting is caught and
logged inside the store; create (absent a primary-key conflict), update,
clear and import all complete successfully, keep the in-memory change and
leave local storage at its previous snapshot. -/
theorem persist_failure_swallowed (row : Row) (s : Store) (blob : Blob)
    (h : ∀ r ∈ s.rows, r.id ≠ row.id) :
    addLog true row s = ({ s with rows := s.rows ++ [row] }, none) ∧
    (updateLog true row s).saved = s.saved ∧
    clearAll true s = { s with rows := [] } ∧
    importRaw true blob s = { s with rows := blob.getD [] } := by
  refine ⟨?_, rfl, rfl, rfl⟩
  simp [addLog, insertRow, rows_any_id_eq_false h, persist]

theorem persist_failure_swallowed_witness :
    addLog true ⟨"b", "Alcohol", none, none, none, "t1"⟩
        ⟨[⟨"a", "Nicotine", none, none, none, "t0"⟩], some []⟩ =
      ({ rows := [⟨"a", "Nicotine", none, none, none, "t0"⟩,
                  ⟨"b", "Alcohol", none, none, none, "t1"⟩],
         saved := some [] }, none) ∧
    (updateLog true ⟨"b", "Alcohol", none, none, none, "t1"⟩
        ⟨[⟨"a", "Nicotine", none, none, none, "t0"⟩], some []⟩).saved =
      some [] ∧
    clearAll true ⟨[⟨"a", "Nicotine", none, none, none, "t0"⟩], some []⟩ =
      { rows := [], saved := some [] } ∧
    importRaw true (some [⟨"c", "Marijuana", none, none, none, "t2"⟩])
        ⟨[⟨"a", "Nicotine", none, none, none, "t0"⟩], some []⟩ =
      { rows := [⟨"c", "Marijuana", none, none, none, "t2"⟩],
        saved := some [] } :=
  persist_failure_swallowed _ _ _ (by decide)

/-- C4: creating a fresh entry and listing yields exactly one entry equal to
it; deleting that id afterwards leaves a listing with no entry of that id
and all other entries unchanged.  The delete operation is modelled from the
spec because deleteLog's body is absent from src/db.ts. -/
theorem create_then_delete_roundtrip (f g : Bool) (e : Row) (s : Store)
    (h : ∀ r ∈ s.rows, r.id ≠ e.id) :
    (addLog f e s).2 = none ∧
    (getAllLogs (addLog f e s).1).count e = 1 ∧
    (∀ r ∈ getAllLogs (deleteLog g e.id (addLog f e s).1), r.id ≠ e.id) ∧
    (getAllLogs (deleteLog g e.id (addLog f e s).1)).Perm s.rows := by
  have hrows : (addLog f e s).1.rows = s.rows ++ [e] := by
    simp [addLog, insertRow, rows_any_id_eq_false h, persist_rows]
  have hsnd : (addLog f e s).2 = none := by
    simp [addLog, insertRow, rows_any_id_eq_false h]
  have hdel : (deleteLog g e.id (addLog f e s).1).rows = s.rows := by
    rw [deleteLog, persist_rows]
    show ((addLog f e s).1.rows.filter (fun r => r.id ≠ e.id)) = s.rows
    rw [hrows, List.filter_append]
    have h1 : s.rows.filter (fun r => r.id ≠ e.id) = s.rows :=
      List.filter_eq_self.mpr (fun r hr => by simpa using h r hr)
    have h2 : [e].filter (fun r => r.id ≠ e.id) = [] := by simp
    rw [h1, h2, List.append_nil]
  refine ⟨hsnd, ?_, ?_, ?_⟩
  · rw [(getAllLogs_perm _).count_eq, hrows, List.count_append]
    have h0 : s.rows.count e = 0 :=
      List.count_eq_zero.mpr (fun he => h e he rfl)
    simp [h0]
  · intro r hr
    have : r ∈ s.rows := by
      rw [← hdel]
      exact ((getAllLogs_perm _).mem_iff).mp hr
    exact h r this
  · have := getAllLogs_perm (deleteLog g e.id (addLog f e s).1)
    rwa [hdel] at this

theorem create_then_delete_roundtrip_witness :
    (addLog false ⟨"b", "Alcohol", none, none, none, "t1"⟩
        ⟨[⟨"a", "Nicotine", none, none, none, "t0"⟩], none⟩).2 = none ∧
    (getAllLogs (addLog false ⟨"b", "Alcohol", none, none, none, "t1"⟩
        ⟨[⟨"a", "Nicotine", none, none, none, "t0"⟩], none⟩).1).count
      ⟨"b", "Alcohol", none, none, none, "t1"⟩ = 1 ∧
    (∀ r ∈ getAllLogs (deleteLog false "b"
        (addLog false ⟨"b", "Alcohol", none, none, none, "t1"⟩
          ⟨[⟨"a", "Nicotine", none, none, none, "t0"⟩], none⟩).1),
      r.id ≠ "b") ∧
    (getAllLogs (deleteLog false "b"
        (addLog false ⟨"b", "Alcohol", none, none, none, "t1"⟩
          ⟨[⟨"a", "Nicotine", none, none, none, "t0"⟩], none⟩).1)).Perm
      [⟨"a", "Nicotine", none, none, none, "t0"⟩] :=
  create_then_delete_roundtrip false false
    ⟨"b", "Alcohol", none, none, none, "t1"⟩
    ⟨[⟨"a", "Nicotine", none, none, none, "t0"⟩], none⟩ (by decide)

lemma normFeelings (l : List String) :
    ∀ fs, (if l.length ≠ 0 then some l else none) = some fs → fs ≠ [] := by
  intro fs hfs
  split at hfs
  next hcond =>
    cases hfs
    intro hnil
    exact hcond (by simp [hnil])
  next => exact Option.noConfusion hfs

lemma applyEdit_preserves_inv (e : LogEntry) (a : EditAction)
    (h : EntryInv e) : EntryInv (applyEdit e a) := by
  cases a with
  | setSubstance s mem =>
    refine ⟨?_, h.2⟩
    have hne : ∀ x ∈ SUBSTANCE_OPTIONS, x ≠ "" := by decide
    exact hne s mem
  | toggle f =>
    exact ⟨h.1, fun fs hfs => normFeelings _ fs hfs⟩
  | setDosage d => exact ⟨h.1, h.2⟩
  | setNotes n => exact ⟨h.1, h.2⟩
  | setTime iso => exact ⟨h.1, h.2⟩

lemma foldl_applyEdit_preserves_inv (acts : List EditAction) :
    ∀ e : LogEntry, EntryInv e → EntryInv (acts.foldl applyEdit e) := by
  induction acts with
  | nil => exact fun e h => h
  | cons a as ih => exact fun e h => ih _ (applyEdit_preserves_inv e a h)

/-- C9: an entry produced by form submission satisfies the entry
invariants (non-empty substance, feelings non-empty when present, the
empty selection normalised to absent); a submission whose substance trims
to blank is rejected (no entry, hence no store call); and any sequence of
edit actions preserves the invariants. -/
theorem entry_invariants_submit_edit (st : FormState) (newId nowIso : String)
    (e : LogEntry) (hsub : handleSubmit st newId nowIso = some e)
    (e0 : LogEntry) (acts : List EditAction) (h0 : EntryInv e0)
    (st2 : FormState) (hblank : jsTrim st2.substance = "") :
    EntryInv e ∧ EntryInv (acts.foldl applyEdit e0) ∧
    handleSubmit st2 newId nowIso = none := by
  refine ⟨?_, foldl_applyEdit_preserves_inv acts e0 h0, ?_⟩
  · by_cases h : jsTrim st.substance = ""
    · simp [handleSubmit, h] at hsub
    · simp only [handleSubmit, h, if_false, Option.some.injEq] at hsub
      rw [← hsub]
      exact ⟨h, fun fs hfs => normFeelings st.feelings fs hfs⟩
  · simp [handleSubmit, hblank]

theorem entry_invariants_submit_edit_witness :
    EntryInv ⟨"i", "Alcohol", "", some ["happy"], none, "t"⟩ ∧
    EntryInv ([EditAction.toggle "happy",
        EditAction.setSubstance "Marijuana" (by decide),
        EditAction.setDosage "5mg"].foldl applyEdit
      ⟨"a", "Nicotine", "", none, none, "t0"⟩) ∧
    handleSubmit ⟨"  ", "n", [], "d"⟩ "i" "t" = none :=
  entry_invariants_submit_edit ⟨"Alcohol", "", ["happy"], ""⟩ "i" "t"
    ⟨"i", "Alcohol", "", some ["happy"], none, "t"⟩ rfl
    ⟨"a", "Nicotine", "", none, none, "t0"⟩ _
    ⟨by decide, fun fs hfs => Option.noConfusion hfs⟩
    ⟨"  ", "n", [], "d"⟩ rfl

/-- C3: at a non-empty all-zero input the MultiLineChart divisor (the
maximum of all series values, unguarded) evaluates to 0, so the y
coordinate v/max there is a division by zero, while the two bar chart
divisors are guarded to at least 1 for every input as the claim states. -/
theorem multiLineChart_divisor_zero_at_all_zero :
    multiLineMax [("Marijuana", [0, 0])] = 0 ∧
    (∀ values : List ℚ, 1 ≤ verticalBarDivisor values) ∧
    (∀ values : List ℚ, 1 ≤ horizontalBarDivisor values) := by
  refine ⟨?_, fun _ => le_max_left 1 _, fun _ => le_max_left 1 _⟩
  show [(0 : ℚ)].foldl max 0 = 0
  simp

lemma freq_foldl (cutoff : Option ℤ) (sName : String) (hs : sName ≠ "") :
    ∀ (logs : List FreqLog) (counts : String → ℕ),
      (logs.foldl (freqStep cutoff) counts) sName =
        counts sName +
        (logs.filter (fun l =>
          l.substance == sName && !(freqSkip cutoff l))).length := by
  intro logs
  induction logs with
  | nil => intro counts; simp
  | cons l ls ih =>
    intro counts
    rw [List.foldl_cons, ih, List.filter_cons]
    by_cases h1 : l.substance = ""
    · have hp : (l.substance == sName && !(freqSkip cutoff l)) = false := by
        have hb : (l.substance == sName) = false :=
          beq_eq_false_iff_ne.mpr (fun he => hs (h1 ▸ he).symm)
        simp [hb]
      simp only [hp, Bool.false_eq_true, if_false]
      simp [freqStep, h1]
    · by_cases h2 : freqSkip cutoff l
      · have hp : (l.substance == sName && !(freqSkip cutoff l)) = false := by
          simp [h2]
        simp only [hp, Bool.false_eq_true, if_false]
        simp [freqStep, h1, h2]
      · by_cases h3 : sName = l.substance
        · have hp : (l.substance == sName && !(freqSkip cutoff l)) = true := by
            simp [h3, h2]
          simp only [hp, if_true]
          simp [freqStep, h1, h2, h3]
          omega
        · have hp : (l.substance == sName && !(freqSkip cutoff l)) = false := by
            have hb : (l.substance == sName) = false :=
              beq_eq_false_iff_ne.mpr (fun he => h3 he.symm)
            simp [hb]
          simp only [hp, Bool.false_eq_true, if_false]
          simp [freqStep, h1, h2, h3]

/-- C8 counterexample: a window of 0 days is treated like the null
(unbounded) window because 0 is falsy in JS, so with now at day 10 an entry
at epoch 0 — strictly older than now − 0 days — is still counted (count 1),
where the claim's boundary (timestamp at or after now − N days) counts 0. -/
theorem frequencies_zero_window_counterexample :
    aggregateFrequencies 864000000 [⟨"Alcohol", 0⟩] (some 0) "Alcohol" = 1 ∧
    (0 : ℤ) < 864000000 - 0 * (24 * 60 * 60 * 1000) := by
  exact ⟨rfl, by decide⟩

/-- C8 amended: for a nonzero day count N (with a nonzero cutoff value),
the frequency aggregation counts per substance exactly the entries with
that (non-empty) substance whose time is at or after now − N days, and for
the null window it counts every entry of that substance; a day count of 0
falls into the unbounded case (JS falsy 0), not the windowed one. -/
theorem frequencies_window_amended (now : ℤ) (logs : List FreqLog) (d : ℤ)
    (sName : String) (hd : d ≠ 0)
    (hc : now - d * (24 * 60 * 60 * 1000) ≠ 0) (hs : sName ≠ "") :
    aggregateFrequencies now logs (some d) sName =
      (logs.filter (fun l => l.substance == sName &&
        decide (now - d * (24 * 60 * 60 * 1000) ≤ l.time))).length ∧
    aggregateFrequencies now logs none sName =
      (logs.filter (fun l => l.substance == sName)).length := by
  constructor
  · rw [aggregateFrequencies, freq_foldl _ _ hs]
    have hcut : freqCutoff now (some d) =
        some (now - d * (24 * 60 * 60 * 1000)) := by
      simp [freqCutoff, hd]
    rw [hcut]
    have hc2 : now - d * 86400000 ≠ 0 := by simpa using hc
    have hpt : ∀ l ∈ logs,
        (l.substance == sName &&
          !(freqSkip (some (now - d * (24 * 60 * 60 * 1000))) l)) =
        (l.substance == sName &&
          decide (now - d * (24 * 60 * 60 * 1000) ≤ l.time)) := by
      intro l _
      by_cases hb : l.substance == sName
      · simp only [hb, Bool.true_and]
        simp [freqSkip, hc2, ← decide_not, not_lt]
      · simp only [Bool.not_eq_true] at hb
        simp [hb]
    rw [List.filter_congr hpt]
    simp
  · rw [aggregateFrequencies, freq_foldl _ _ hs]
    have hpt : ∀ l ∈ logs,
        (l.substance == sName && !(freqSkip none l)) =
        (l.substance == sName) := by
      intro l _
      simp [freqSkip]
    rw [show freqCutoff now none = none from rfl, List.filter_congr hpt]
    simp

theorem frequencies_window_amended_witness :
    aggregateFrequencies 864000000 [⟨"Alcohol", 0⟩, ⟨"Alcohol", 800000000⟩]
        (some 7) "Alcohol" =
      ([⟨"Alcohol", 0⟩, ⟨"Alcohol", 800000000⟩].filter
        (fun l : FreqLog => l.substance == "Alcohol" &&
          decide ((864000000 : ℤ) - 7 * (24 * 60 * 60 * 1000) ≤ l.time))).length ∧
    aggregateFrequencies 864000000 [⟨"Alcohol", 0⟩, ⟨"Alcohol", 800000000⟩]
        none "Alcohol" =
      ([⟨"Alcohol", 0⟩, ⟨"Alcohol", 800000000⟩].filter
        (fun l : FreqLog => l.substance == "Alcohol")).length :=
  frequencies_window_amended 864000000 _ 7 "Alcohol" (by decide) (by decide)
    (by decide)

example :
    aggregateFrequencies 864000000 [⟨"Alcohol", 0⟩, ⟨"Alcohol", 800000000⟩]
      (some 7) "Alcohol" = 1 := rfl

lemma entryMagnitude_eq_specMagnitude_fix (dosage : Option String) :
    entryMagnitude dosage =
      if specMagnitude dosage = 0 then 1 else specMagnitude dosage := by
  cases dosage with
  | none =>
    show (if (0 : ℚ) = 0 then 1 else 0) =
      if specMagnitude none = 0 then 1 else specMagnitude none
    norm_num [specMagnitude]
  | some d =>
    by_cases hd : d = ""
    · subst hd
      show (if (0 : ℚ) = 0 then 1 else 0) = _
      norm_num [show specMagnitude (some "") = (1 : ℚ) from rfl]
    · simp only [entryMagnitude, specMagnitude]
      rw [if_pos hd]
      cases hw : dosageWeight d with
      | some w => rfl
      | none =>
        cases hp : jsParseFloat d with
        | some p => rfl
        | none => norm_num

lemma getD_set_self {α : Type} (l : List α) (i : ℕ) (v d : α)
    (h : i < l.length) : (l.set i v).getD i d = v := by
  rw [List.getD_eq_getElem _ _ (by simpa using h)]
  exact List.getElem_set_self (by simpa using h)

lemma getD_set_ne {α : Type} (l : List α) (i j : ℕ) (v d : α)
    (hne : j ≠ i) : (l.set j v).getD i d = l.getD i d := by
  by_cases h : i < l.length
  · rw [List.getD_eq_getElem _ _ (by simpa using h),
      List.getD_eq_getElem _ _ h]
    exact List.getElem_set_ne hne _
  · rw [List.getD_eq_default _ _ (by rw [List.length_set]; omega),
      List.getD_eq_default _ _ (by omega)]

lemma usageStep_length (dateKey : String → String) (labels : List String)
    (subs : List String) (series : String → List ℚ) (l : LogEntry)
    (sName : String) :
    ((usageStep dateKey labels subs series l) sName).length =
      (series sName).length := by
  unfold usageStep
  by_cases h1 : l.substance = ""
  · rw [if_pos h1]
  · rw [if_neg h1]
    by_cases h2 : l.substance ∉ subs
    · rw [if_pos h2]
    · rw [if_neg h2]
      by_cases h3 : l.timestamp = ""
      · rw [if_pos h3]
      · rw [if_neg h3]
        by_cases h4 : dateKey l.timestamp ∈ labels
        · by_cases h5 : sName = l.substance
          · simp [h4, h5, List.length_set]
          · simp [h4, h5]
        · rw [if_neg h4]

lemma usageStep_getD (dateKey : String → String) (labels : List String)
    (subs : List String) (sName : String) (i : ℕ)
    (hs : sName ∈ subs) (hsne : sName ≠ "") (hnd : labels.Nodup)
    (hi : i < labels.length)
    (series : String → List ℚ) (hlen : (series sName).length = labels.length)
    (l : LogEntry) :
    ((usageStep dateKey labels subs series l) sName).getD i 0 =
      (series sName).getD i 0 +
      (if l.substance == sName && l.timestamp != "" &&
          dateKey l.timestamp == labels.getD i "" then
        entryMagnitude l.dosage
      else 0) := by
  have hlab : labels.getD i "" = labels[i] := List.getD_eq_getElem _ _ hi
  unfold usageStep
  by_cases h1 : l.substance = ""
  · rw [if_pos h1]
    have hb : (l.substance == sName) = false :=
      beq_eq_false_iff_ne.mpr (fun he => hsne (h1 ▸ he).symm)
    have hcond : (l.substance == sName && l.timestamp != "" &&
        dateKey l.timestamp == labels.getD i "") = false := by simp [hb]
    rw [hcond]
    simp
  · rw [if_neg h1]
    by_cases h2 : l.substance ∉ subs
    · rw [if_pos h2]
      have hb : (l.substance == sName) = false :=
        beq_eq_false_iff_ne.mpr (fun he => h2 (he ▸ hs))
      have hcond : (l.substance == sName && l.timestamp != "" &&
          dateKey l.timestamp == labels.getD i "") = false := by simp [hb]
      rw [hcond]
      simp
    · rw [if_neg h2]
      by_cases h3 : l.timestamp = ""
      · rw [if_pos h3]
        have hb : (l.timestamp != "") = false := by simp [h3]
        have hcond : (l.substance == sName && l.timestamp != "" &&
            dateKey l.timestamp == labels.getD i "") = false := by simp [hb]
        rw [hcond]
        simp
      · rw [if_neg h3]
        by_cases h4 : dateKey l.timestamp ∈ labels
        · rw [if_pos h4]
          by_cases h5 : sName = l.substance
          · rw [if_pos h5, ← h5]
            by_cases h6 : labels.indexOf (dateKey l.timestamp) = i
            · rw [h6, getD_set_self _ _ _ _ (by rw [hlen]; exact hi)]
              have hkey : dateKey l.timestamp = labels.getD i "" := by
                subst h6
                rw [List.getD_eq_getElem _ _ (List.indexOf_lt_length.mpr h4)]
                exact (List.getElem_indexOf (List.indexOf_lt_length.mpr h4)).symm
              have hcond : (sName == sName && l.timestamp != "" &&
                  dateKey l.timestamp == labels.getD i "") = true := by
                rw [beq_self_eq_true, Bool.true_and, bne_iff_ne.mpr h3,
                  Bool.true_and, hkey, beq_self_eq_true]
              rw [hcond, if_pos rfl]
            · rw [getD_set_ne _ _ _ _ _ h6]
              have hb : (dateKey l.timestamp == labels.getD i "") = false := by
                apply beq_eq_false_iff_ne.mpr
                intro he
                apply h6
                rw [he, hlab]
                exact List.indexOf_getElem hnd i hi
              have hcond : (sName == sName && l.timestamp != "" &&
                  dateKey l.timestamp == labels.getD i "") = false := by
                rw [hb, Bool.and_false]
              rw [hcond]
              simp
          · rw [if_neg h5]
            have hb : (l.substance == sName) = false :=
              beq_eq_false_iff_ne.mpr (fun he => h5 he.symm)
            have hcond : (l.substance == sName && l.timestamp != "" &&
                dateKey l.timestamp == labels.getD i "") = false := by simp [hb]
            rw [hcond]
            simp
        · rw [if_neg h4]
          have hb : (dateKey l.timestamp == labels.getD i "") = false := by
            apply beq_eq_false_iff_ne.mpr
            intro he
            apply h4
            rw [he, hlab]
            exact labels.getElem_mem hi
          have hcond : (l.substance == sName && l.timestamp != "" &&
              dateKey l.timestamp == labels.getD i "") = false := by
            rw [hb, Bool.and_false]
          rw [hcond]
          simp

lemma usage_foldl_bucket (dateKey : String → String) (labels : List String)
    (subs : List String) (sName : String) (i : ℕ)
    (hs : sName ∈ subs) (hsne : sName ≠ "") (hnd : labels.Nodup)
    (hi : i < labels.length) :
    ∀ (logs : List LogEntry) (series : String → List ℚ),
      (series sName).length = labels.length →
      ((logs.foldl (usageStep dateKey labels subs) series) sName).getD i 0 =
        (series sName).getD i 0 +
        ((logs.filter (fun l => l.substance == sName && l.timestamp != "" &&
            dateKey l.timestamp == labels.getD i "")).map
          (fun l => entryMagnitude l.dosage)).sum := by
  intro logs
  induction logs with
  | nil => intro series _; simp
  | cons l ls ih =>
    intro series hlen
    rw [List.foldl_cons,
      ih _ (by rw [usageStep_length]; exact hlen),
      usageStep_getD dateKey labels subs sName i hs hsne hnd hi series hlen l,
      List.filter_cons]
    by_cases hc : (l.substance == sName && l.timestamp != "" &&
        dateKey l.timestamp == labels.getD i "") = true
    · simp only [hc, if_true, List.map_cons, List.sum_cons]
      ring
    · simp only [Bool.not_eq_true] at hc
      simp only [hc, Bool.false_eq_true, if_false]
      ring

/-- C1 counterexample: an entry whose dosage text parses as the decimal
number 0 contributes 1 to its day bucket, not the parsed number 0 required
by tier (b) of the claim's chain (aggregateUsageOverTime bumps any
resolved magnitude of 0 to 1).  The day-bucketing function is instantiated
with the UTC calendar-day prefix of the ISO timestamp. -/
theorem usage_zero_dosage_counterexample :
    aggregateUsageOverTime (fun ts => String.mk (ts.data.take 10))
        [⟨"e1", "Alcohol", "", none, some "0", "2026-01-01T12:00:00.000Z"⟩]
        ["2026-01-01"] ["Alcohol"] "Alcohol" = [1] ∧
    specMagnitude (some "0") = 0 ∧ (1 : ℚ) ≠ 0 := by
  refine ⟨?_, ?_, by norm_num⟩
  · show [(0 : ℚ) + entryMagnitude (some "0")] = [1]
    have h1 : entryMagnitude (some "0") = 1 := by
      show (if decimalValue false [0] [] 0 = 0 then 1
            else decimalValue false [0] [] 0) = 1
      norm_num [decimalValue, digitsVal]
    rw [h1]
    norm_num
  · show decimalValue false [0] [] 0 = 0
    norm_num [decimalValue, digitsVal]

/-- C1 amended: for a tracked, non-empty substance and a duplicate-free
label list, each day bucket of the usage-over-time series sums, over the
entries of that substance whose day key is that bucket's label, the
three-tier magnitude of the claim amended in one point the counterexample
forces: a magnitude that resolves to 0 (a dosage text parsing as the
number 0) is replaced by the default 1. -/
theorem usage_bucket_magnitude_amended (dateKey : String → String)
    (logs : List LogEntry) (labels : List String) (subs : List String)
    (sName : String) (i : ℕ) (hs : sName ∈ subs) (hsne : sName ≠ "")
    (hnd : labels.Nodup) (hi : i < labels.length) :
    ((aggregateUsageOverTime dateKey logs labels subs) sName).getD i 0 =
      ((logs.filter (fun l => l.substance == sName && l.timestamp != "" &&
          dateKey l.timestamp == labels.getD i "")).map
        (fun l => if specMagnitude l.dosage = 0 then 1
                  else specMagnitude l.dosage)).sum := by
  rw [aggregateUsageOverTime,
    usage_foldl_bucket dateKey labels subs sName i hs hsne hnd hi logs _
      (by simp [hs])]
  have hinit : ((fun s => if s ∈ subs then labels.map (fun _ => (0 : ℚ))
      else []) sName).getD i 0 = 0 := by
    simp only [hs, if_true]
    rw [List.getD_eq_getElem _ _ (by simpa using hi)]
    simp
  rw [hinit, zero_add]
  simp only [entryMagnitude_eq_specMagnitude_fix]

theorem usage_bucket_magnitude_amended_witness :
    ((aggregateUsageOverTime (fun ts => String.mk (ts.data.take 10))
        [⟨"e1", "A", "", none, some "5mg", "2026-01-01T01:00:00.000Z"⟩,
         ⟨"e2", "A", "", none, some "bogus", "2026-01-01T02:00:00.000Z"⟩]
        ["2026-01-01"] ["A"]) "A").getD 0 0 =
      (([⟨"e1", "A", "", none, some "5mg", "2026-01-01T01:00:00.000Z"⟩,
         ⟨"e2", "A", "", none, some "bogus", "2026-01-01T02:00:00.000Z"⟩].filter
          (fun l : LogEntry => l.substance == "A" && l.timestamp != "" &&
            (fun ts => String.mk (ts.data.take 10)) l.timestamp ==
              ["2026-01-01"].getD 0 "")).map
        (fun l : LogEntry => if specMagnitude l.dosage = 0 then 1
          else specMagnitude l.dosage)).sum :=
  usage_bucket_magnitude_amended _ _ _ _ "A" 0 (by decide) (by decide)
    (by decide) (by decide)

example :
    aggregateUsageOverTime (fun ts => String.mk (ts.data.take 10))
        [⟨"e1", "A", "", none, some "5mg", "2026-01-01T01:00:00.000Z"⟩,
         ⟨"e2", "A", "", none, some "bogus", "2026-01-01T02:00:00.000Z"⟩]
        ["2026-01-01"] ["A"] "A" = [6] := by
  show [((0 : ℚ) + entryMagnitude (some "5mg")) +
    entryMagnitude (some "bogus")] = [6]
  have h5 : entryMagnitude (some "5mg") = 5 := by
    show (if (5 : ℚ) = 0 then 1 else 5) = 5
    norm_num
  have hb : entryMagnitude (some "bogus") = 1 := by
    show (if (0 : ℚ) = 0 then 1 else 0) = 1
    norm_num
  rw [h5, hb]
  norm_num
